import Mathlib

/-!
# Verification of the mandau control-plane core

Shallow embedding of the mandau repository (github.com/bhangun/mandau):
the agent-side operation manager, the stack lifecycle engine, the compose
diff computation, the control-node agent registry, the inbound-RPC
interceptor chains, and the filesystem capability.  Each definition is
translated from the corresponding Go source; file and line references are
given in doc comments.  Theorems at the end of the file settle the spec
claims against these definitions.
-/

namespace Mandau

/-! ## Association-list helpers

Go `map[string]T` (and `map[string]*T`) values are modelled as association
lists; `mapInsert` has Go map-assignment semantics (overwrite if the key is
present, add otherwise). -/

def lookupKey {α : Type} [BEq α] {β : Type} : List (α × β) → α → Option β
  | [], _ => none
  | p :: rest, k => if p.1 == k then some p.2 else lookupKey rest k

def mapInsert {α : Type} [BEq α] {β : Type} : List (α × β) → α → β → List (α × β)
  | [], k, v => [(k, v)]
  | p :: rest, k, v => if p.1 == k then (k, v) :: rest else p :: mapInsert rest k v

def mapUpdate {α : Type} [BEq α] {β : Type} (l : List (α × β)) (k : α) (f : β → β) :
    List (α × β) :=
  l.map (fun p => if p.1 == k then (p.1, f p.2) else p)

/-! ## Contexts

Go `context.Context` values are modelled by an id: `background` is
`context.Background()`, and `derived n` is the n-th context produced by
`context.WithCancel`.  A cancel function is identified by the context it
cancels. -/

inductive Ctx
  | background
  | derived (n : Nat)
deriving DecidableEq, Repr

/-! ## Operation manager

From `pkg/agent/operation` (second section of
`src/pkg/agent/service/service_handler.go`).  Operation ids are produced by
`uuid.New()` in Go; they are modelled by a fresh-counter `Nat`. -/

inductive OperationState
  | pending
  | running
  | completed
  | failed
  | cancelled
deriving DecidableEq, Repr

/-- Spec notion: `completed`, `failed` and `cancelled` are the terminal
states of the operation state machine (§4.3). -/
def OperationState.isTerminal : OperationState → Bool
  | .completed => true
  | .failed => true
  | .cancelled => true
  | _ => false

/-- `operation.Operation`: id, type, state, timestamps, error, progress,
metadata, and the cancel function (identified by the context it cancels). -/
structure Operation where
  id : Nat
  type : String
  state : OperationState
  createdAt : Nat
  completedAt : Option Nat
  error : Option String
  progress : Int
  metadata : List (String × String)
  cancelCtx : Ctx
deriving DecidableEq, Repr

/-- `operation.Event`: the snapshot sent to subscribers.  A field the Go
code leaves at its zero value is `0` / `""` / `none` here. -/
structure Event where
  operationID : Nat
  state : OperationState
  timestamp : Nat
  message : String
  progress : Int
  error : Option String
deriving DecidableEq, Repr

/-- `operation.Manager`.  `events` is the canonical emission log (what
`emitEventLocked` hands to every subscriber with buffer room); `nextOp`
models the uuid source; `nextCtx` the `context.WithCancel` source;
`cancelledCtxs` the set of contexts whose cancel function has run; `clock`
the value `time.Now()` returns while a call runs. -/
structure OpManager where
  operations : List (Nat × Operation)
  events : List Event
  nextOp : Nat
  nextCtx : Nat
  cancelledCtxs : List Ctx
  clock : Nat
deriving DecidableEq, Repr

/-- `operation.NewManager()` (clock supplied by the environment). -/
def OpManager.new (clock : Nat) : OpManager :=
  { operations := [], events := [], nextOp := 0, nextCtx := 0,
    cancelledCtxs := [], clock := clock }

def OpManager.lookupOp (m : OpManager) (opID : Nat) : Option Operation :=
  lookupKey m.operations opID

/-- `Manager.emitEventLocked`: append the event to the emission log. -/
def OpManager.emitEventLocked (m : OpManager) (e : Event) : OpManager :=
  { m with events := m.events ++ [e] }

/-- `Manager.CreateOperation` (service_handler.go:351-371): allocate a
fresh op id, derive a cancellable context from `context.Background()` and
DISCARD it (`_, cancel := context.WithCancel(...)`), keeping only the
cancel function; store the op in state `pending`. -/
def OpManager.CreateOperation (m : OpManager) (opType : String)
    (metadata : List (String × String)) : OpManager × Nat :=
  let opID := m.nextOp
  let ctx := Ctx.derived m.nextCtx
  let op : Operation :=
    { id := opID, type := opType, state := .pending, createdAt := m.clock,
      completedAt := none, error := none, progress := 0,
      metadata := metadata, cancelCtx := ctx }
  ({ m with operations := m.operations ++ [(opID, op)],
            nextOp := m.nextOp + 1, nextCtx := m.nextCtx + 1 }, opID)

/-- `Manager.SetState` (service_handler.go:402-418): unknown id is a no-op;
otherwise set the state (NO terminal-state check) and emit an event whose
message/progress/error are zero values. -/
def OpManager.SetState (m : OpManager) (opID : Nat) (st : OperationState) :
    OpManager :=
  match m.lookupOp opID with
  | none => m
  | some _ =>
    let ops := mapUpdate m.operations opID (fun op => { op with state := st })
    let m1 := { m with operations := ops }
    m1.emitEventLocked
      { operationID := opID, state := st, timestamp := m.clock,
        message := "", progress := 0, error := none }

/-- `Manager.SetProgress` (service_handler.go:421-438): unknown id is a
no-op; otherwise set the progress (no clamping, NO terminal-state check,
state untouched) and emit an event carrying the current state. -/
def OpManager.SetProgress (m : OpManager) (opID : Nat) (progress : Int) :
    OpManager :=
  match m.lookupOp opID with
  | none => m
  | some op =>
    let ops := mapUpdate m.operations opID (fun o => { o with progress := progress })
    let m1 := { m with operations := ops }
    m1.emitEventLocked
      { operationID := opID, state := op.state, timestamp := m.clock,
        message := "", progress := progress, error := none }

/-- `Manager.EmitEvent` (service_handler.go:441-456): unknown id is a
no-op; otherwise emit a message event carrying the current state. -/
def OpManager.EmitEvent (m : OpManager) (opID : Nat) (message : String) :
    OpManager :=
  match m.lookupOp opID with
  | none => m
  | some op =>
    m.emitEventLocked
      { operationID := opID, state := op.state, timestamp := m.clock,
        message := message, progress := 0, error := none }

/-- `Manager.SetError` (service_handler.go:459-479): unknown id is a no-op;
otherwise force state `failed` (NO terminal-state check), record the error,
stamp `completedAt`, and emit a failure event. -/
def OpManager.SetError (m : OpManager) (opID : Nat) (err : String) :
    OpManager :=
  match m.lookupOp opID with
  | none => m
  | some _ =>
    let ops := mapUpdate m.operations opID
      (fun op => { op with state := .failed, error := some err, completedAt := some m.clock })
    let m1 := { m with operations := ops }
    m1.emitEventLocked
      { operationID := opID, state := .failed, timestamp := m.clock,
        message := "", progress := 0, error := some err }

/-- `Manager.SetCompleted` (service_handler.go:482-502): unknown id is a
no-op; otherwise force state `completed` (NO terminal-state check), set
progress 100, stamp `completedAt`, and emit a completion event. -/
def OpManager.SetCompleted (m : OpManager) (opID : Nat) : OpManager :=
  match m.lookupOp opID with
  | none => m
  | some _ =>
    let ops := mapUpdate m.operations opID
      (fun op => { op with state := .completed, progress := 100, completedAt := some m.clock })
    let m1 := { m with operations := ops }
    m1.emitEventLocked
      { operationID := opID, state := .completed, timestamp := m.clock,
        message := "", progress := 100, error := none }

/-- `Manager.Cancel` (service_handler.go:505-528).  Unknown id: error,
manager untouched.  State `completed` or `failed`: plain error
`"operation already finished"`, manager untouched (`cancelled` is NOT
checked).  Otherwise: run the cancel function, set state `cancelled`,
stamp `completedAt`, and emit one event whose timestamp is the Go zero
value (the literal has no `Timestamp` field). -/
def OpManager.Cancel (m : OpManager) (opID : Nat) : OpManager × Option String :=
  match m.lookupOp opID with
  | none => (m, some ("operation not found: " ++ toString opID))
  | some op =>
    if op.state == .completed || op.state == .failed then
      (m, some "operation already finished")
    else
      let ops := mapUpdate m.operations opID
        (fun o => { o with state := .cancelled, completedAt := some m.clock })
      let m1 := { m with cancelledCtxs := m.cancelledCtxs ++ [op.cancelCtx], operations := ops }
      (m1.emitEventLocked
        { operationID := opID, state := .cancelled, timestamp := 0,
          message := "", progress := 0, error := none }, none)

/-- Well-formedness: every stored op id was allocated below the fresh
counter (holds for every manager reachable from `OpManager.new`). -/
def OpManager.WF (m : OpManager) : Prop :=
  ∀ p ∈ m.operations, p.1 < m.nextOp

/-! ## Filesystem model

The on-disk state is an association list from path to content.  `fsWrite`
is `os.WriteFile` (overwrite-or-create), `fsRead` is `os.ReadFile`,
`fsRemoveAll` is `os.RemoveAll` on a directory path. -/

def fsWrite (fs : List (String × String)) (path content : String) :
    List (String × String) :=
  mapInsert fs path content

def fsRead (fs : List (String × String)) (path : String) : Option String :=
  lookupKey fs path

def fsRemoveAll (fs : List (String × String)) (path : String) :
    List (String × String) :=
  fs.filter (fun p => !(p.1 == path) && !(p.1.startsWith (path ++ "/")))

/-! ## Filesystem capability (src/pkg/agent/filesystem/filesystem.go) -/

/-- `filesystem.Manager.ReadFile` (filesystem.go:20-22): delegates the
caller-supplied path directly to `os.ReadFile`.  There is no validation of
any kind before the read.  The second component is the trace of paths
handed to the operating system by the call. -/
def fsManagerReadFile (fs : List (String × String)) (path : String) :
    Option String × List String :=
  (fsRead fs path, [path])

/-- Spec predicate (spec §6, Filesystem scoping): an already-canonical
absolute path lies outside `stack_root` unless it equals the root or
extends it by a path separator. -/
def specOutsideRoot (stackRoot path : String) : Bool :=
  !(path == stackRoot) && !(path.startsWith (stackRoot ++ "/"))

/-! ## Compose model and diff (src/pkg/agent/stack/manager.go)

`types.ServiceConfig` from compose-go, restricted to the fields the code
and the claims touch. -/

structure PortConfig where
  target : Nat
  published : String
  protocol : String
deriving DecidableEq, Repr

structure ServiceConfig where
  name : String
  image : String
  ports : List PortConfig
  environment : List (String × Option String)
  volumes : List String
  command : List String
  restart : String
deriving DecidableEq, Repr

structure Project where
  name : String
  services : List ServiceConfig
deriving DecidableEq, Repr

inductive DiffAction
  | actionNone
  | create
  | update
  | delete
deriving DecidableEq, Repr

structure ServiceDiff where
  name : String
  action : DiffAction
  changes : List String
deriving DecidableEq, Repr

structure DiffResult where
  services : List ServiceDiff
  hasChanges : Bool
deriving DecidableEq, Repr

/-- `Manager.compareServices` (manager.go:413-431): the ONLY comparisons
performed are image equality, the LENGTH of the ports list, and the LENGTH
of the environment map; volumes, command, restart policy and the contents
of equal-length ports/environment are never examined ("Compare other
fields as needed" is an unexpanded comment in the source). -/
def compareServices (current new : ServiceConfig) : List String :=
  (if current.image ≠ new.image then
    ["image: " ++ current.image ++ " → " ++ new.image] else []) ++
  (if current.ports.length ≠ new.ports.length then ["ports changed"] else []) ++
  (if current.environment.length ≠ new.environment.length then
    ["environment changed"] else [])

def findService (svcs : List ServiceConfig) (name : String) :
    Option ServiceConfig :=
  svcs.find? (fun s => s.name == name)

/-- `Manager.computeDiff` (manager.go:361-411).  Go iterates map snapshots
of the two service lists; the model iterates the lists directly (entry
ORDER is not part of any claim).  `hasChanges` is set exactly when an entry
is appended. -/
def computeDiff (current new : Project) : DiffResult :=
  let fromNew := new.services.filterMap (fun nsvc =>
    match findService current.services nsvc.name with
    | some csvc =>
      let changes := compareServices csvc nsvc
      if changes.length > 0 then
        some { name := nsvc.name, action := DiffAction.update, changes := changes }
      else
        none
    | none => some { name := nsvc.name, action := DiffAction.create, changes := [] })
  let fromCurrent := current.services.filterMap (fun csvc =>
    if (findService new.services csvc.name).isSome then none
    else some { name := csvc.name, action := DiffAction.delete, changes := [] })
  let entries := fromNew ++ fromCurrent
  { services := entries, hasChanges := !entries.isEmpty }

/-! ## Stack manager (src/pkg/agent/stack/manager.go)

The external world (compose-go loader, Docker image pulls, `docker compose`
subprocesses) is a parameter. -/

/-- External collaborators of the stack manager: the compose parser
(`loader.LoadWithContext`, returning `none` on a parse error), per-image
pull success, and subprocess success keyed by working directory and argv. -/
structure World where
  parseCompose : String → String → Option Project
  pullOk : String → Bool
  execOk : String → List String → Bool

/-- `stack.ApplyStackRequest` (manager.go:491-498). -/
structure ApplyStackRequest where
  stackName : String
  composeContent : String
  envVars : List (String × String)
  forceRecreate : Bool
  services : List String
  pullImages : Bool
deriving DecidableEq, Repr

/-- The `.env` mirror written by ApplyStack (manager.go:256-259):
`KEY=VALUE` lines (Go map iteration order is modelled by list order). -/
def envFileContent : List (String × String) → String
  | [] => ""
  | (k, v) :: rest => k ++ "=" ++ v ++ "\n" ++ envFileContent rest

/-- One side effect performed by the stack manager, in program order. -/
inductive Effect
  | mkdirAll (path : String)
  | writeFile (path content : String)
  | createOp (opID : Nat)
  | spawnWorker (ctx : Ctx) (opID : Nat)
  | removeAll (path : String)
  | execCompose (workDir : String) (args : List String)
deriving DecidableEq, Repr

def Effect.isWrite : Effect → Bool
  | .writeFile _ _ => true
  | .removeAll _ => true
  | _ => false

/-- `stack.Manager` state: the stack root, the disk, and the operation
manager (the docker client and the `stacks` map play no part in the
claims-relevant paths). -/
structure StackManager where
  stackRoot : String
  fs : List (String × String)
  opMgr : OpManager
deriving DecidableEq, Repr

/-- `Manager.ApplyStack` (manager.go:236-274), the synchronous phase run
under the manager mutex: create the stack directory, write the compose
file, write `.env` iff the environment map is non-empty, create the
operation, spawn `executeApply` on a fresh `context.Background()`, and
return the op id.  The effect trace records the side effects in program
order.  (No per-stack in-flight check of any kind is performed.) -/
def StackManager.ApplyStack (m : StackManager) (req : ApplyStackRequest) :
    StackManager × Nat × List Effect :=
  let stackPath := m.stackRoot ++ "/" ++ req.stackName
  let composePath := stackPath ++ "/compose.yaml"
  let fs1 := fsWrite m.fs composePath req.composeContent
  let envPath := stackPath ++ "/.env"
  let fs2 := if req.envVars.length > 0 then
      fsWrite fs1 envPath (envFileContent req.envVars)
    else fs1
  let envEffects := if req.envVars.length > 0 then
      [Effect.writeFile envPath (envFileContent req.envVars)]
    else []
  let created := m.opMgr.CreateOperation "stack.apply" [("stack", req.stackName)]
  let m1 : StackManager := { m with fs := fs2, opMgr := created.1 }
  (m1, created.2,
    [Effect.mkdirAll stackPath, Effect.writeFile composePath req.composeContent] ++
    envEffects ++
    [Effect.createOp created.2, Effect.spawnWorker Ctx.background created.2])

/-- `Manager.pullImages` (manager.go:324-339): pull each named image in
declaration order; `none` on success, `some image` for the first failing
pull. -/
def pullImagesRun (w : World) : List ServiceConfig → Option String
  | [] => none
  | svc :: rest =>
    if svc.image == "" then pullImagesRun w rest
    else if w.pullOk svc.image then pullImagesRun w rest
    else some svc.image

/-- The `docker compose ... up -d` argv built by executeApply
(manager.go:303-312). -/
def applyCmd (req : ApplyStackRequest) : List String :=
  ["docker", "compose", "-f", req.stackName ++ "/compose.yaml", "up", "-d"] ++
  (if req.forceRecreate then ["--force-recreate"] else []) ++
  req.services

/-- `Manager.executeApply` (manager.go:276-322), the worker goroutine:
transition to running, emit progress messages, parse (fail the op on a
parse error), optionally pull images, run `docker compose up`, and finish
with SetCompleted or SetError.  It performs NO filesystem writes and never
restores earlier on-disk content. -/
def StackManager.executeApply (w : World) (m : StackManager) (opID : Nat)
    (req : ApplyStackRequest) : StackManager × List Effect :=
  let om1 := (m.opMgr.SetState opID .running).EmitEvent opID "Parsing compose file..."
  match w.parseCompose req.stackName req.composeContent with
  | none =>
    ({ m with opMgr := om1.SetError opID "parse compose" }, [])
  | some project =>
    let pullStep :=
      if req.pullImages then
        let om2 := om1.EmitEvent opID "Pulling images..."
        match pullImagesRun w project.services with
        | some img => Sum.inl ({ m with opMgr := om2.SetError opID ("pull images: " ++ img) }, ([] : List Effect))
        | none => Sum.inr om2
      else Sum.inr om1
    match pullStep with
    | Sum.inl failed => failed
    | Sum.inr om3 =>
      let om4 := om3.EmitEvent opID "Creating/updating services..."
      let cmd := applyCmd req
      if w.execOk m.stackRoot cmd then
        let om5 := (om4.EmitEvent opID "Stack applied successfully").SetCompleted opID
        ({ m with opMgr := om5 }, [Effect.execCompose m.stackRoot cmd])
      else
        ({ m with opMgr := om4.SetError opID "compose up" }, [Effect.execCompose m.stackRoot cmd])

/-- `Manager.RemoveStack` (manager.go:434-447), the synchronous phase:
create the operation and spawn `executeRemove` on a fresh
`context.Background()`.  (No per-stack in-flight check is performed.) -/
def StackManager.RemoveStack (m : StackManager) (stackName : String)
    (_removeVolumes : Bool) : StackManager × Nat × List Effect :=
  let created := m.opMgr.CreateOperation "stack.remove" [("stack", stackName)]
  let m1 : StackManager := { m with opMgr := created.1 }
  (m1, created.2,
    [Effect.createOp created.2, Effect.spawnWorker Ctx.background created.2])

/-- The `docker compose ... down` argv built by executeRemove
(manager.go:454-458). -/
def removeCmd (stackName : String) (removeVolumes : Bool) : List String :=
  ["docker", "compose", "-f", stackName ++ "/compose.yaml", "down"] ++
  (if removeVolumes then ["--volumes"] else [])

/-- `Manager.executeRemove` (manager.go:449-473): run `docker compose
down`, then delete the stack directory recursively, then complete. -/
def StackManager.executeRemove (w : World) (m : StackManager) (opID : Nat)
    (stackName : String) (removeVolumes : Bool) : StackManager × List Effect :=
  let stackPath := m.stackRoot ++ "/" ++ stackName
  let om1 := (m.opMgr.SetState opID .running).EmitEvent opID "Stopping containers..."
  let cmd := removeCmd stackName removeVolumes
  if w.execOk m.stackRoot cmd then
    let om2 := om1.EmitEvent opID "Removing stack directory..."
    let fs1 := fsRemoveAll m.fs stackPath
    let om3 := (om2.EmitEvent opID "Stack removed successfully").SetCompleted opID
    ({ m with fs := fs1, opMgr := om3 },
      [Effect.execCompose m.stackRoot cmd, Effect.removeAll stackPath])
  else
    ({ m with opMgr := om1.SetError opID "compose down" },
      [Effect.execCompose m.stackRoot cmd])

/-- Number of stack apply/remove operations for the given stack name
currently in `running` state (spec §8 observable). -/
def runningStackOpsFor (m : OpManager) (stackName : String) : Nat :=
  (m.operations.filter (fun p =>
    p.2.state == OperationState.running &&
    (p.2.type == "stack.apply" || p.2.type == "stack.remove") &&
    (lookupKey p.2.metadata "stack" == some stackName))).length

/-! ## Agent registry (src/pkg/core/server.go, second section) -/

inductive AgentStatus
  | online
  | offline
  | statusError
deriving DecidableEq, Repr

/-- `core.AgentConnection` (server.go:389-399).  The cached outbound gRPC
channel `Client` is modelled by an optional connection id. -/
structure AgentConnection where
  id : String
  hostname : String
  address : String
  labels : List (String × String)
  capabilities : List String
  client : Option Nat
  lastSeen : Nat
  status : AgentStatus
  knownStacks : List String
deriving DecidableEq, Repr

structure RegisterRequest where
  agentId : String
  hostname : String
  labels : List (String × String)
  capabilities : List String
deriving DecidableEq, Repr

/-- `core.AgentRegistry` plus the clock (`time.Now()`). -/
structure Registry where
  agents : List (String × AgentConnection)
  clock : Nat
deriving DecidableEq, Repr

/-- `generateAgentID` (server.go:722-725): `agent-<hostname>-<unix_ts>`. -/
def generateAgentID (hostname : String) (now : Nat) : String :=
  "agent-" ++ hostname ++ "-" ++ toString now

/-- `Core.RegisterAgent` (server.go:574-607): adopt the supplied agent id
(or generate one), then store a BRAND-NEW `AgentConnection` record under
that id — overwriting any existing record wholesale: `Client` is nil,
`Stacks` (known stacks) is empty, `Address` is the zero value.  Returns the agent id (the
response also carries the 30 s heartbeat interval). -/
def Registry.RegisterAgent (r : Registry) (req : RegisterRequest) :
    Registry × String :=
  let agentID := if req.agentId ≠ "" then req.agentId
    else generateAgentID req.hostname r.clock
  let conn : AgentConnection :=
    { id := agentID, hostname := req.hostname, address := "",
      labels := req.labels, capabilities := req.capabilities,
      client := none, lastSeen := r.clock, status := .online, knownStacks := [] }
  ({ r with agents := mapInsert r.agents agentID conn }, agentID)

/-! ## Interceptor chains (src/unnamed/part_001 Agent.Serve,
src/pkg/core/server.go Core.Serve) -/

inductive InterceptorKind
  | auth
  | audit
  | policy
  | recovery
deriving DecidableEq, Repr

/-- The unary chain the Agent installs (part_001:747-752), in
`grpc.ChainUnaryInterceptor` argument order (first = outermost). -/
def agentUnaryInterceptors : List InterceptorKind :=
  [.auth, .audit, .policy, .recovery]

/-- The stream chain the Agent installs (part_001:753-757). -/
def agentStreamInterceptors : List InterceptorKind :=
  [.auth, .audit, .recovery]

/-- The unary chain the Control Node installs (server.go:539-542): ONLY
auth and audit — no policy interceptor and no recovery interceptor. -/
def coreUnaryInterceptors : List InterceptorKind :=
  [.auth, .audit]

inductive ChainPhase
  | enter (k : InterceptorKind)
  | handlerRun
  | auditRecord
deriving DecidableEq, Repr

/-- Semantics of `grpc.ChainUnaryInterceptor`: the first listed interceptor
is outermost, so pre-handler work runs in list order and the handler runs
innermost.  Of the four interceptors only audit does post-handler work
(part_001:861-885: it calls the handler, then records — unconditionally,
whether or not the handler returned an error), so on the way back out an
`auditRecord` fires for each audit interceptor, innermost first.  The
handler outcome does not change which phases run. -/
def chainTrace (chain : List InterceptorKind) (outcomeIsError : Bool) :
    List ChainPhase :=
  let post := chain.reverse.filterMap (fun k =>
    if k == InterceptorKind.audit then some ChainPhase.auditRecord else none)
  let _ := outcomeIsError
  (chain.map ChainPhase.enter) ++ [ChainPhase.handlerRun] ++ post

/-! ## Association-list lemmas -/

theorem lookupKey_mapUpdate_self {α : Type} [BEq α] {β : Type}
    (l : List (α × β)) (k : α) (f : β → β) (v : β)
    (h : lookupKey l k = some v) :
    lookupKey (mapUpdate l k f) k = some (f v) := by
  induction l with
  | nil => simp [lookupKey] at h
  | cons p rest ih =>
    by_cases hk : (p.1 == k) = true
    · simp [lookupKey, hk] at h
      simp [mapUpdate, lookupKey, hk, h]
    · simp only [lookupKey, hk, if_neg, Bool.false_eq_true, not_false_iff,
        ite_false] at h
      have := ih h
      simp only [mapUpdate, List.map_cons, hk, if_neg, Bool.false_eq_true,
        not_false_iff, ite_false]
      simp only [lookupKey, hk, Bool.false_eq_true, not_false_iff, ite_false]
      simpa [mapUpdate] using this

theorem lookupKey_mapUpdate_ne {α : Type} [BEq α] [LawfulBEq α] {β : Type}
    (l : List (α × β)) (k k' : α) (f : β → β) (hne : k' ≠ k) :
    lookupKey (mapUpdate l k f) k' = lookupKey l k' := by
  induction l with
  | nil => simp [lookupKey, mapUpdate]
  | cons p rest ih =>
    by_cases hk : (p.1 == k) = true
    · have hpk : p.1 = k := eq_of_beq hk
      have hp' : (k == k') = false := by
        cases hbe : k == k' with
        | false => rfl
        | true => exact absurd (eq_of_beq hbe).symm hne
      simp only [mapUpdate, List.map_cons, hk, ite_true]
      simp only [lookupKey, hp', hpk, Bool.false_eq_true, ite_false]
      simpa [mapUpdate] using ih
    · simp only [mapUpdate, List.map_cons, hk, Bool.false_eq_true,
        not_false_iff, ite_false]
      by_cases hp : (p.1 == k') = true
      · simp [lookupKey, hp]
      · simp only [lookupKey, hp, Bool.false_eq_true, not_false_iff, ite_false]
        simpa [mapUpdate] using ih

theorem lookupKey_append_fresh {α : Type} [BEq α] [LawfulBEq α] {β : Type}
    (l : List (α × β)) (k : α) (v : β)
    (h : ∀ p ∈ l, (p.1 == k) = false) :
    lookupKey (l ++ [(k, v)]) k = some v := by
  induction l with
  | nil => simp [lookupKey]
  | cons p rest ih =>
    have hp := h p (by simp)
    have hrest : ∀ q ∈ rest, (q.1 == k) = false := fun q hq => h q (by simp [hq])
    simpa [lookupKey, hp] using ih hrest

theorem mapUpdate_eq_of_fresh {α : Type} [BEq α] {β : Type}
    (l : List (α × β)) (k : α) (f : β → β)
    (h : ∀ p ∈ l, (p.1 == k) = false) :
    mapUpdate l k f = l := by
  induction l with
  | nil => rfl
  | cons p rest ih =>
    have hp := h p (by simp)
    have hrest : ∀ q ∈ rest, (q.1 == k) = false := fun q hq => h q (by simp [hq])
    have ihr : List.map (fun q => if q.1 == k then (q.1, f q.2) else q) rest = rest := by
      simpa [mapUpdate] using ih hrest
    simp [mapUpdate, hp, ihr]

theorem lookupKey_mapInsert_self {α : Type} [BEq α] [LawfulBEq α] {β : Type}
    (l : List (α × β)) (k : α) (v : β) :
    lookupKey (mapInsert l k v) k = some v := by
  induction l with
  | nil => simp [mapInsert, lookupKey]
  | cons p rest ih =>
    by_cases hk : (p.1 == k) = true
    · simp [mapInsert, lookupKey, hk]
    · simpa [mapInsert, lookupKey, hk] using ih

/-! ## Operation-manager lemmas -/

theorem lookupOp_SetState_self (m : OpManager) (opID : Nat)
    (st : OperationState) (op : Operation) (h : m.lookupOp opID = some op) :
    (m.SetState opID st).lookupOp opID = some { op with state := st } := by
  simp only [OpManager.SetState, h]
  simpa [OpManager.lookupOp, OpManager.emitEventLocked] using
    lookupKey_mapUpdate_self m.operations opID (fun o => { o with state := st }) op h

theorem lookupOp_SetCompleted_self (m : OpManager) (opID : Nat)
    (op : Operation) (h : m.lookupOp opID = some op) :
    (m.SetCompleted opID).lookupOp opID =
      some { op with state := OperationState.completed, progress := 100, completedAt := some m.clock } := by
  simp only [OpManager.SetCompleted, h]
  simpa [OpManager.lookupOp, OpManager.emitEventLocked] using
    lookupKey_mapUpdate_self m.operations opID
      (fun o => { o with state := OperationState.completed, progress := 100, completedAt := some m.clock }) op h

theorem lookupOp_SetError_self (m : OpManager) (opID : Nat) (err : String)
    (op : Operation) (h : m.lookupOp opID = some op) :
    (m.SetError opID err).lookupOp opID =
      some { op with state := OperationState.failed, error := some err, completedAt := some m.clock } := by
  simp only [OpManager.SetError, h]
  simpa [OpManager.lookupOp, OpManager.emitEventLocked] using
    lookupKey_mapUpdate_self m.operations opID
      (fun o => { o with state := OperationState.failed, error := some err, completedAt := some m.clock }) op h

theorem lookupOp_SetProgress_self (m : OpManager) (opID : Nat) (p : Int)
    (op : Operation) (h : m.lookupOp opID = some op) :
    (m.SetProgress opID p).lookupOp opID = some { op with progress := p } := by
  simp only [OpManager.SetProgress, h]
  simpa [OpManager.lookupOp, OpManager.emitEventLocked] using
    lookupKey_mapUpdate_self m.operations opID (fun o => { o with progress := p }) op h

/-! ## Claim C2: interceptor chain order -/

/-- C2, counterexample.  The claim states every inbound RPC on both Control
Node and Agent runs recover first, then authenticate, then authorize, then
the handler, with audit last.  In the code the Agent's chain begins with
auth (recover is the INNERMOST interceptor), and the Control Node's chain
has no policy interceptor and no recover interceptor at all. -/
theorem c2_chain_counterexample :
    chainTrace agentUnaryInterceptors false ≠
      [ChainPhase.enter InterceptorKind.recovery, ChainPhase.enter InterceptorKind.auth,
       ChainPhase.enter InterceptorKind.policy, ChainPhase.handlerRun, ChainPhase.auditRecord] ∧
    InterceptorKind.policy ∉ coreUnaryInterceptors ∧
    InterceptorKind.recovery ∉ coreUnaryInterceptors := by decide

/-- C2, amended: on the Agent the unary chain runs authenticate first
(outermost), then audit, then authorize, then recover (innermost), then
the handler; the audit record fires after the handler regardless of the
handler's outcome.  The Agent stream chain is auth, audit, recover.  On
the Control Node the chain is authenticate then audit only — no policy and
no recover interceptor. -/
theorem c2_chain_amended (outcomeIsError : Bool) :
    chainTrace agentUnaryInterceptors outcomeIsError =
      [ChainPhase.enter InterceptorKind.auth, ChainPhase.enter InterceptorKind.audit,
       ChainPhase.enter InterceptorKind.policy, ChainPhase.enter InterceptorKind.recovery,
       ChainPhase.handlerRun, ChainPhase.auditRecord] ∧
    chainTrace agentStreamInterceptors outcomeIsError =
      [ChainPhase.enter InterceptorKind.auth, ChainPhase.enter InterceptorKind.audit,
       ChainPhase.enter InterceptorKind.recovery, ChainPhase.handlerRun,
       ChainPhase.auditRecord] ∧
    chainTrace coreUnaryInterceptors outcomeIsError =
      [ChainPhase.enter InterceptorKind.auth, ChainPhase.enter InterceptorKind.audit,
       ChainPhase.handlerRun, ChainPhase.auditRecord] := by
  cases outcomeIsError <;> decide

/-! ## Claim C3: filesystem path scoping -/

def etcPasswdFs : List (String × String) :=
  [("/etc/passwd", "root:x:0:0:root:/root:/bin/bash")]

set_option maxRecDepth 8000 in
/-- C3: the filesystem capability performs NO path validation.  For the
path `/etc/passwd` — whose canonical form escapes the stack root
`/var/lib/mandau/stacks` — `Manager.ReadFile` hands the path straight to
`os.ReadFile` and returns the file content; nothing is refused and the
read outside `stack_root` occurs. -/
theorem c3_readFile_no_validation :
    specOutsideRoot "/var/lib/mandau/stacks" "/etc/passwd" = true ∧
    fsManagerReadFile etcPasswdFs "/etc/passwd" =
      (some "root:x:0:0:root:/root:/bin/bash", ["/etc/passwd"]) := by decide

/-! ## Claim C4: terminal states and unknown op ids -/

/-- C4, counterexample.  After `SetCompleted` the operation is in the
terminal state `completed`, yet a later `SetState running` moves it back
to `running` — not a no-op as the claim states. -/
theorem c4_terminal_counterexample :
    (((((OpManager.new 0).CreateOperation "stack.apply" [("stack", "web")]).1.SetCompleted
        0).lookupOp 0).map Operation.state = some OperationState.completed) ∧
    ((((((OpManager.new 0).CreateOperation "stack.apply" [("stack", "web")]).1.SetCompleted
        0).SetState 0 OperationState.running).lookupOp 0).map Operation.state =
      some OperationState.running) := by decide

/-- C4, amended: calls naming an unknown op_id are no-ops (including event
emission), but the setters perform no terminal-state check — SetState,
SetProgress, SetError and SetCompleted applied to an operation in a
terminal state mutate it. -/
theorem c4_amended_behavior (m : OpManager) (opID : Nat) (st : OperationState)
    (p : Int) (msg err : String) (op : Operation) :
    (m.lookupOp opID = none →
      m.SetState opID st = m ∧ m.SetProgress opID p = m ∧
      m.EmitEvent opID msg = m ∧ m.SetError opID err = m ∧
      m.SetCompleted opID = m) ∧
    (m.lookupOp opID = some op → op.state.isTerminal = true →
      (m.SetState opID st).lookupOp opID = some { op with state := st } ∧
      (m.SetProgress opID p).lookupOp opID = some { op with progress := p } ∧
      (m.SetError opID err).lookupOp opID = some { op with state := OperationState.failed, error := some err, completedAt := some m.clock } ∧
      (m.SetCompleted opID).lookupOp opID = some { op with state := OperationState.completed, progress := 100, completedAt := some m.clock }) := by
  constructor
  · intro h
    refine ⟨?_, ?_, ?_, ?_, ?_⟩ <;>
      simp [OpManager.SetState, OpManager.SetProgress, OpManager.EmitEvent,
        OpManager.SetError, OpManager.SetCompleted, h]
  · intro h _
    exact ⟨lookupOp_SetState_self m opID st op h,
      lookupOp_SetProgress_self m opID p op h,
      lookupOp_SetError_self m opID err op h,
      lookupOp_SetCompleted_self m opID op h⟩

def c4WitnessMgr : OpManager :=
  (((OpManager.new 0).CreateOperation "stack.apply" [("stack", "web")]).1.SetCompleted 0)

def c4WitnessOp : Operation :=
  { id := 0, type := "stack.apply", state := OperationState.completed,
    createdAt := 0, completedAt := some 0, error := none, progress := 100,
    metadata := [("stack", "web")], cancelCtx := Ctx.derived 0 }

/-- C4 amended, witness at a concrete manager holding one completed op. -/
theorem c4_amended_behavior_witness :
    (c4WitnessMgr.SetState 0 OperationState.running).lookupOp 0 =
      some { c4WitnessOp with state := OperationState.running } :=
  ((c4_amended_behavior c4WitnessMgr 0 OperationState.running 5 "msg" "err"
    c4WitnessOp).2 (by decide) (by decide)).1

/-! ## Claim C7: Cancel on terminal and non-terminal operations -/

def c7CancelledMgr : OpManager :=
  ((((OpManager.new 3).CreateOperation "stack.apply" [("stack", "web")]).1.SetState
    0 OperationState.running).Cancel 0).1

/-- C7, counterexample.  The claim states Cancel on an operation in ANY
terminal state returns an error.  After a first Cancel the operation is in
the terminal state `cancelled`, yet a second Cancel returns no error (the
code only checks `completed` and `failed`) and emits another event. -/
theorem c7_cancel_counterexample :
    ((c7CancelledMgr.lookupOp 0).map Operation.state = some OperationState.cancelled) ∧
    ((c7CancelledMgr.Cancel 0).2 = none) ∧
    ((c7CancelledMgr.Cancel 0).1.events.length = c7CancelledMgr.events.length + 1) := by
  decide

/-- C7, amended: Cancel returns an error only for a `completed` or `failed`
op (the plain error "operation already finished" — no FailedPrecondition
status is attached anywhere in the source), leaving the manager unchanged;
on a `pending`, `running` or `cancelled` op (`cancelled` is not treated as
terminal) it invokes the cancellation handle, sets state `cancelled`,
stamps `completed_at`, and emits one final event. -/
theorem c7_amended_behavior (m : OpManager) (opID : Nat) (op : Operation)
    (h : m.lookupOp opID = some op) :
    ((op.state = OperationState.completed ∨ op.state = OperationState.failed) →
      m.Cancel opID = (m, some "operation already finished")) ∧
    ((op.state = OperationState.pending ∨ op.state = OperationState.running ∨
      op.state = OperationState.cancelled) →
      (m.Cancel opID).2 = none ∧
      (m.Cancel opID).1.lookupOp opID = some { op with state := OperationState.cancelled, completedAt := some m.clock } ∧
      (m.Cancel opID).1.cancelledCtxs = m.cancelledCtxs ++ [op.cancelCtx] ∧
      (m.Cancel opID).1.events = m.events ++ [{ operationID := opID, state := OperationState.cancelled, timestamp := 0, message := "", progress := 0, error := none }]) := by
  constructor
  · rintro (hs | hs) <;> simp [OpManager.Cancel, h, hs]
  · rintro (hs | hs | hs) <;>
      (simp only [OpManager.Cancel, h, hs]
       refine ⟨rfl, ?_, rfl, rfl⟩
       simpa [OpManager.lookupOp, OpManager.emitEventLocked] using
         lookupKey_mapUpdate_self m.operations opID
           (fun o => { o with state := OperationState.cancelled, completedAt := some m.clock }) op h)

def c7WitnessMgr : OpManager :=
  (((OpManager.new 3).CreateOperation "stack.apply" [("stack", "web")]).1.SetState
    0 OperationState.running)

def c7WitnessOp : Operation :=
  { id := 0, type := "stack.apply", state := OperationState.running,
    createdAt := 3, completedAt := none, error := none, progress := 0,
    metadata := [("stack", "web")], cancelCtx := Ctx.derived 0 }

/-- C7 amended, witness: cancelling a concrete running op succeeds. -/
theorem c7_amended_behavior_witness :
    (c7WitnessMgr.Cancel 0).2 = none :=
  (((c7_amended_behavior c7WitnessMgr 0 c7WitnessOp (by decide)).2
    (Or.inr (Or.inl rfl)))).1

/-! ## Claim C8: progress 100 vs completed -/

def c8Mgr : OpManager :=
  ((((OpManager.new 0).CreateOperation "stack.apply" [("stack", "web")]).1.SetState
    0 OperationState.running).SetProgress 0 100)

/-- C8, counterexample.  `SetProgress(op, 100)` on a running operation
yields `progress = 100` with `state = running`, so `progress = 100` does
NOT imply `state = completed`. -/
theorem c8_progress_counterexample :
    ((c8Mgr.lookupOp 0).map Operation.progress = some 100) ∧
    ((c8Mgr.lookupOp 0).map Operation.state = some OperationState.running) := by decide

/-- C8, amended: `SetCompleted` sets `progress = 100` and
`state = completed` together, but `SetProgress` updates progress without
touching the state (and without clamping), so `progress = 100` can be
observed in any state. -/
theorem c8_amended_behavior (m : OpManager) (opID : Nat) (p : Int)
    (op : Operation) (h : m.lookupOp opID = some op) :
    ((m.SetProgress opID p).lookupOp opID = some { op with progress := p }) ∧
    ((m.SetCompleted opID).lookupOp opID = some { op with state := OperationState.completed, progress := 100, completedAt := some m.clock }) :=
  ⟨lookupOp_SetProgress_self m opID p op h, lookupOp_SetCompleted_self m opID op h⟩

def c8WitnessMgr : OpManager :=
  (((OpManager.new 0).CreateOperation "stack.apply" [("stack", "web")]).1.SetState
    0 OperationState.running)

def c8WitnessOp : Operation :=
  { id := 0, type := "stack.apply", state := OperationState.running,
    createdAt := 0, completedAt := none, error := none, progress := 0,
    metadata := [("stack", "web")], cancelCtx := Ctx.derived 0 }

/-- C8 amended, witness at a concrete running op. -/
theorem c8_amended_behavior_witness :
    (c8WitnessMgr.SetProgress 0 100).lookupOp 0 =
      some { c8WitnessOp with progress := 100 } :=
  (c8_amended_behavior c8WitnessMgr 0 100 c8WitnessOp (by decide)).1

/-! ## Claim C6: re-registration and the cached channel -/

def c6OldConn : AgentConnection :=
  { id := "agent-1", hostname := "node-a", address := "10.0.0.5:8444",
    labels := [("zone", "a")], capabilities := ["docker"], client := some 7,
    lastSeen := 100, status := AgentStatus.offline, knownStacks := ["web"] }

def c6Registry : Registry := { agents := [("agent-1", c6OldConn)], clock := 200 }

def c6Req : RegisterRequest :=
  { agentId := "agent-1", hostname := "node-a",
    labels := [("zone", "a"), ("gpu", "yes")],
    capabilities := ["docker", "stack"] }

/-- C6, counterexample.  The claim states the previously cached outbound
channel is kept on re-registration.  In the code `RegisterAgent`
overwrites the whole record with a fresh one whose `Client` is nil: the
cached channel (id 7 here) is dropped, and the known-stacks list is reset
as well. -/
theorem c6_reregistration_counterexample :
    ((lookupKey (c6Registry.RegisterAgent c6Req).1.agents "agent-1").map
      AgentConnection.client = some none) ∧
    c6OldConn.client = some 7 ∧
    ((lookupKey (c6Registry.RegisterAgent c6Req).1.agents "agent-1").map
      AgentConnection.knownStacks = some []) := by decide

/-- C6, amended: re-registration of an existing agent_id does refresh
labels, capabilities and last_seen and set status online, but it replaces
the entire record: the cached outbound channel is dropped (`Client` ends
up nil, to be re-established lazily on next use) and the known-stacks
inventory is reset to empty. -/
theorem c6_amended_behavior (r : Registry) (req : RegisterRequest)
    (old : AgentConnection) (hid : req.agentId ≠ "")
    (hold : lookupKey r.agents req.agentId = some old) :
    (r.RegisterAgent req).2 = req.agentId ∧
    lookupKey (r.RegisterAgent req).1.agents req.agentId =
      some { id := req.agentId, hostname := req.hostname, address := "",
             labels := req.labels, capabilities := req.capabilities,
             client := none, lastSeen := r.clock,
             status := AgentStatus.online, knownStacks := [] } := by
  have _ := hold
  constructor
  · simp [Registry.RegisterAgent, hid]
  · simp only [Registry.RegisterAgent, hid, ne_eq, not_false_iff, if_pos]
    exact lookupKey_mapInsert_self r.agents req.agentId _

/-- C6 amended, witness at the concrete re-registration scenario. -/
theorem c6_amended_behavior_witness :
    (c6Registry.RegisterAgent c6Req).2 = "agent-1" :=
  (c6_amended_behavior c6Registry c6Req c6OldConn (by decide) (by decide)).1

/-! ## Claim C5: DiffStack UPDATE characterization -/

def c5CurrentSvc : ServiceConfig where
  name := "web"
  image := "nginx:1.25"
  ports := [{ target := 80, published := "80", protocol := "tcp" }]
  environment := [("A", some "1")]
  volumes := ["data:/data"]
  command := ["nginx"]
  restart := "always"

def c5NewSvc : ServiceConfig where
  name := "web"
  image := "nginx:1.25"
  ports := [{ target := 8080, published := "8080", protocol := "tcp" }]
  environment := [("A", some "2")]
  volumes := ["other:/data"]
  command := ["nginx-debug"]
  restart := "no"

def c5Current : Project := { name := "web", services := [c5CurrentSvc] }

def c5New : Project := { name := "web", services := [c5NewSvc] }

/-- C5, counterexample.  The two `web` specs differ in published ports,
environment values, volumes, command and restart policy (all at equal
list lengths and equal image), so the claim demands an UPDATE entry — yet
`computeDiff` compares only image and the two list LENGTHS and reports no
change at all. -/
theorem c5_diff_counterexample :
    computeDiff c5Current c5New = { services := [], hasChanges := false } ∧
    c5CurrentSvc ≠ c5NewSvc := by
  exact ⟨by rfl, by decide⟩

/-- `compareServices` returns no change exactly when image, ports length
and environment length all agree. -/
theorem compareServices_eq_nil_iff (c n : ServiceConfig) :
    compareServices c n = [] ↔
      (c.image = n.image ∧ c.ports.length = n.ports.length ∧
       c.environment.length = n.environment.length) := by
  unfold compareServices
  by_cases h1 : c.image = n.image <;>
    by_cases h2 : c.ports.length = n.ports.length <;>
      by_cases h3 : c.environment.length = n.environment.length <;>
        simp [h1, h2, h3]

/-- In a list of services with pairwise-distinct names, an element is
determined by its name. -/
theorem service_name_unique {l : List ServiceConfig}
    (hnodup : (l.map ServiceConfig.name).Nodup) {a b : ServiceConfig}
    (ha : a ∈ l) (hb : b ∈ l) (hab : a.name = b.name) : a = b := by
  induction l with
  | nil => cases ha
  | cons x xs ih =>
    simp only [List.map_cons, List.nodup_cons] at hnodup
    rcases List.mem_cons.mp ha with rfl | ha' <;>
      rcases List.mem_cons.mp hb with rfl | hb'
    · rfl
    · exact absurd (hab ▸ List.mem_map_of_mem ServiceConfig.name hb') hnodup.1
    · exact absurd (hab ▸ List.mem_map_of_mem ServiceConfig.name ha') hnodup.1
    · exact ih hnodup.2 ha' hb'

/-- C5, amended: for a service present in both projects, `computeDiff`
produces an UPDATE entry iff the image differs, or the NUMBER of ports
differs, or the NUMBER of environment entries differs; differences in
port/environment contents at equal length, in volumes, in command or in
restart policy are invisible.  Identical specs still produce no entry. -/
theorem c5_amended_update_iff (current new : Project) (s : String)
    (csvc nsvc : ServiceConfig)
    (hc : findService current.services s = some csvc)
    (hn : findService new.services s = some nsvc)
    (hnodup : (new.services.map ServiceConfig.name).Nodup) :
    ((computeDiff current new).services.any
        (fun d => d.name == s && d.action == DiffAction.update)) = true ↔
      (csvc.image ≠ nsvc.image ∨ csvc.ports.length ≠ nsvc.ports.length ∨
       csvc.environment.length ≠ nsvc.environment.length) := by
  have hmemn : nsvc ∈ new.services := List.mem_of_find?_eq_some hn
  have hnames : nsvc.name = s := by
    have := List.find?_some hn
    simpa using this
  constructor
  · intro hany
    rw [computeDiff] at hany
    simp only [List.any_append, Bool.or_eq_true, List.any_eq_true] at hany
    rcases hany with ⟨d, hd, hpred⟩ | ⟨d, hd, hpred⟩
    · rcases List.mem_filterMap.mp hd with ⟨n1, hn1, hf⟩
      cases hfind : findService current.services n1.name with
      | none =>
        simp only [hfind, Option.some.injEq] at hf
        subst hf
        simp at hpred
      | some c1 =>
        simp only [hfind] at hf
        by_cases hch : (compareServices c1 n1).length > 0
        · rw [if_pos hch] at hf
          simp only [Option.some.injEq] at hf
          subst hf
          simp only [Bool.and_eq_true, beq_iff_eq] at hpred
          have hn1s : n1.name = s := hpred.1
          have hn1eq : n1 = nsvc :=
            service_name_unique hnodup hn1 hmemn (hn1s.trans hnames.symm)
          rw [hn1s, hc, Option.some.injEq] at hfind
          by_contra hcon
          push_neg at hcon
          have hnil : compareServices csvc nsvc = [] :=
            (compareServices_eq_nil_iff csvc nsvc).mpr hcon
          rw [hfind, ← hn1eq] at hnil
          rw [hnil] at hch
          simp at hch
        · rw [if_neg hch] at hf
          cases hf
    · rcases List.mem_filterMap.mp hd with ⟨c1, _, hf⟩
      by_cases hex : (findService new.services c1.name).isSome
      · simp [hex] at hf
      · simp only [hex, Bool.false_eq_true, if_neg, reduceIte,
          Option.some.injEq] at hf
        subst hf
        simp at hpred
  · intro hdiff
    rw [computeDiff]
    simp only [List.any_append, Bool.or_eq_true, List.any_eq_true]
    left
    have hch : compareServices csvc nsvc ≠ [] := by
      intro hnil
      rcases (compareServices_eq_nil_iff csvc nsvc).mp hnil with ⟨h1, h2, h3⟩
      rcases hdiff with h | h | h <;> contradiction
    have hlen : (compareServices csvc nsvc).length > 0 := List.length_pos.mpr hch
    refine ⟨{ name := s, action := DiffAction.update,
              changes := compareServices csvc nsvc }, ?_, ?_⟩
    · apply List.mem_filterMap.mpr
      refine ⟨nsvc, hmemn, ?_⟩
      simp [hnames, hc, hlen]
    · simp

/-- C5 amended, witness: a pure image change on the concrete project from
the counterexample produces the UPDATE entry. -/
theorem c5_amended_update_iff_witness :
    ((computeDiff c5Current
        { name := "web", services := [{ c5CurrentSvc with image := "nginx:1.26" }] }).services.any
      (fun d => d.name == "web" && d.action == DiffAction.update)) = true :=
  (c5_amended_update_iff c5Current
    { name := "web", services := [{ c5CurrentSvc with image := "nginx:1.26" }] }
    "web" c5CurrentSvc { c5CurrentSvc with image := "nginx:1.26" }
    (by decide) (by decide) (by decide)).mpr (Or.inl (by decide))

/-! ## More association-list and string lemmas -/

theorem lookupKey_append_of_some {α : Type} [BEq α] {β : Type}
    (l l2 : List (α × β)) (k : α) (v : β)
    (h : lookupKey l k = some v) : lookupKey (l ++ l2) k = some v := by
  induction l with
  | nil => simp [lookupKey] at h
  | cons p rest ih =>
    by_cases hp : (p.1 == k) = true
    · simp only [lookupKey, hp, ite_true] at h
      simp [lookupKey, hp, h]
    · simp only [lookupKey, hp, Bool.false_eq_true, not_false_iff, ite_false] at h
      simpa [lookupKey, hp] using ih h

theorem lookupKey_mapInsert_ne {α : Type} [BEq α] [LawfulBEq α] {β : Type}
    (l : List (α × β)) (k k' : α) (v : β) (hne : k' ≠ k) :
    lookupKey (mapInsert l k v) k' = lookupKey l k' := by
  induction l with
  | nil =>
    have : (k == k') = false := by
      cases hbe : k == k' with
      | false => rfl
      | true => exact absurd (eq_of_beq hbe).symm hne
    simp [mapInsert, lookupKey, this]
  | cons p rest ih =>
    by_cases hp : (p.1 == k) = true
    · have hpk : p.1 = k := eq_of_beq hp
      have hkk : (k == k') = false := by
        cases hbe : k == k' with
        | false => rfl
        | true => exact absurd (eq_of_beq hbe).symm hne
      simp [mapInsert, lookupKey, hp, hpk, hkk]
    · by_cases hq : (p.1 == k') = true
      · simp [mapInsert, lookupKey, hp, hq]
      · simpa [mapInsert, lookupKey, hp, hq] using ih

theorem string_data_append (s t : String) : (s ++ t).data = s.data ++ t.data := by
  cases s; cases t; rfl

theorem string_append_right_ne (s : String) {a b : String} (h : a ≠ b) :
    s ++ a ≠ s ++ b := by
  intro he
  apply h
  apply String.ext
  have hd := congrArg String.data he
  rw [string_data_append, string_data_append] at hd
  exact List.append_cancel_left hd

/-! ## CreateOperation lemmas -/

theorem lookupOp_CreateOperation_self (m : OpManager) (t : String)
    (md : List (String × String)) (hwf : m.WF) :
    (m.CreateOperation t md).1.lookupOp m.nextOp =
      some { id := m.nextOp, type := t, state := OperationState.pending, createdAt := m.clock, completedAt := none, error := none, progress := 0, metadata := md, cancelCtx := Ctx.derived m.nextCtx } := by
  have hfresh : ∀ p ∈ m.operations, (p.1 == m.nextOp) = false := by
    intro p hp
    exact beq_eq_false_iff_ne.mpr (Nat.ne_of_lt (hwf p hp))
  simpa [OpManager.CreateOperation, OpManager.lookupOp] using
    lookupKey_append_fresh m.operations m.nextOp _ hfresh

theorem WF_CreateOperation (m : OpManager) (t : String)
    (md : List (String × String)) (hwf : m.WF) :
    (m.CreateOperation t md).1.WF := by
  intro p hp
  simp only [OpManager.CreateOperation, List.mem_append, List.mem_singleton] at hp
  rcases hp with hp | hp
  · exact Nat.lt_succ_of_lt (hwf p hp)
  · subst hp; exact Nat.lt_succ_self _

/-! ## Claim C9: synchronous writes, no restore on failure -/

/-- C9, confirmed.  When `ApplyStack` returns an op id: the compose content
and the `.env` mirror (environment map non-empty here) are already on disk
under `stack_root/<name>/`, and in the effect trace every write precedes
the creation of the operation (which precedes the worker spawn).  If the
asynchronous apply then fails because the compose content does not parse,
the worker performs no filesystem effect at all: the newly written files
remain and nothing is restored. -/
theorem c9_files_written_before_op (m : StackManager) (req : ApplyStackRequest)
    (w : World) (henv : req.envVars ≠ [])
    (hparse : w.parseCompose req.stackName req.composeContent = none) :
    ((m.ApplyStack req).2.2 =
      [Effect.mkdirAll (m.stackRoot ++ "/" ++ req.stackName),
       Effect.writeFile (m.stackRoot ++ "/" ++ req.stackName ++ "/compose.yaml")
         req.composeContent,
       Effect.writeFile (m.stackRoot ++ "/" ++ req.stackName ++ "/.env")
         (envFileContent req.envVars),
       Effect.createOp (m.ApplyStack req).2.1,
       Effect.spawnWorker Ctx.background (m.ApplyStack req).2.1]) ∧
    fsRead (m.ApplyStack req).1.fs
      (m.stackRoot ++ "/" ++ req.stackName ++ "/compose.yaml") =
      some req.composeContent ∧
    fsRead (m.ApplyStack req).1.fs
      (m.stackRoot ++ "/" ++ req.stackName ++ "/.env") =
      some (envFileContent req.envVars) ∧
    ((m.ApplyStack req).1.executeApply w (m.ApplyStack req).2.1 req).1.fs =
      (m.ApplyStack req).1.fs ∧
    ((m.ApplyStack req).1.executeApply w (m.ApplyStack req).2.1 req).2 = [] := by
  have hlen : 0 < req.envVars.length := List.length_pos.mpr henv
  have hne : (m.stackRoot ++ "/" ++ req.stackName) ++ "/compose.yaml" ≠
      (m.stackRoot ++ "/" ++ req.stackName) ++ "/.env" :=
    string_append_right_ne _ (by decide)
  refine ⟨?_, ?_, ?_, ?_, ?_⟩
  · simp [StackManager.ApplyStack, hlen]
  · simp only [StackManager.ApplyStack, hlen, if_pos, fsRead, fsWrite]
    rw [lookupKey_mapInsert_ne _ _ _ _ hne]
    exact lookupKey_mapInsert_self _ _ _
  · simp only [StackManager.ApplyStack, hlen, if_pos, fsRead, fsWrite]
    exact lookupKey_mapInsert_self _ _ _
  · simp [StackManager.executeApply, hparse]
  · simp [StackManager.executeApply, hparse]

def c9Mgr : StackManager :=
  { stackRoot := "/srv", fs := [], opMgr := OpManager.new 0 }

def c9Req : ApplyStackRequest :=
  { stackName := "web", composeContent := "not: [valid", envVars := [("A", "1")],
    forceRecreate := false, services := [], pullImages := false }

def c9World : World :=
  { parseCompose := fun _ _ => none, pullOk := fun _ => true,
    execOk := fun _ _ => true }

/-- C9, witness: concrete apply whose compose content fails to parse. -/
theorem c9_files_written_before_op_witness :
    fsRead (c9Mgr.ApplyStack c9Req).1.fs
      (c9Mgr.stackRoot ++ "/" ++ c9Req.stackName ++ "/compose.yaml") =
      some c9Req.composeContent ∧
    ((c9Mgr.ApplyStack c9Req).1.executeApply c9World
      (c9Mgr.ApplyStack c9Req).2.1 c9Req).1.fs = (c9Mgr.ApplyStack c9Req).1.fs := by
  have h := c9_files_written_before_op c9Mgr c9Req c9World (by decide) rfl
  exact ⟨h.2.1, h.2.2.2.1⟩

theorem cancelledCtxs_SetState (m : OpManager) (opID : Nat) (st : OperationState) :
    (m.SetState opID st).cancelledCtxs = m.cancelledCtxs := by
  unfold OpManager.SetState
  cases m.lookupOp opID <;> simp [OpManager.emitEventLocked]

theorem cancelledCtxs_CreateOperation (m : OpManager) (t : String)
    (md : List (String × String)) :
    (m.CreateOperation t md).1.cancelledCtxs = m.cancelledCtxs := rfl

/-! ## Claim C10: cancellation never interrupts the worker -/

/-- Shared cancellation argument: for ANY operation type, an op allocated
by `CreateOperation` carries a `derived` cancel context (the discarded
`context.WithCancel` child), never `background`; cancelling it while
running succeeds but cancels only that derived context; and a later
`SetCompleted` still lands, leaving the op `completed`. -/
theorem create_cancel_complete (om : OpManager) (t : String)
    (md : List (String × String)) (hwf : om.WF)
    (hbg : Ctx.background ∉ om.cancelledCtxs) :
    ((om.CreateOperation t md).1.lookupOp om.nextOp).map Operation.cancelCtx =
      some (Ctx.derived om.nextCtx) ∧
    Ctx.derived om.nextCtx ≠ Ctx.background ∧
    (((om.CreateOperation t md).1.SetState om.nextOp
        OperationState.running).Cancel om.nextOp).2 = none ∧
    Ctx.background ∉
      (((om.CreateOperation t md).1.SetState om.nextOp
        OperationState.running).Cancel om.nextOp).1.cancelledCtxs ∧
    ((((((om.CreateOperation t md).1.SetState om.nextOp
        OperationState.running).Cancel om.nextOp).1.SetCompleted
        om.nextOp).lookupOp om.nextOp).map Operation.state =
      some OperationState.completed) := by
  have hlkA := lookupOp_CreateOperation_self om t md hwf
  have hlkR := lookupOp_SetState_self _ om.nextOp OperationState.running _ hlkA
  refine ⟨?_, ?_, ?_, ?_, ?_⟩
  · rw [hlkA]
    rfl
  · simp
  · simp [OpManager.Cancel, hlkR]
  · simp only [OpManager.Cancel, hlkR]
    simp only [OpManager.emitEventLocked]
    simp [cancelledCtxs_SetState, cancelledCtxs_CreateOperation, hbg]
  · have hlkC :
        (((om.CreateOperation t md).1.SetState om.nextOp
          OperationState.running).Cancel om.nextOp).1.lookupOp om.nextOp =
        some { id := om.nextOp, type := t,
               state := OperationState.cancelled, createdAt := om.clock,
               completedAt := some (((om.CreateOperation t md).1.SetState
                 om.nextOp OperationState.running).clock),
               error := none, progress := 0, metadata := md,
               cancelCtx := Ctx.derived om.nextCtx } := by
      simp only [OpManager.Cancel, hlkR]
      simp only [OpManager.lookupOp, OpManager.emitEventLocked]
      simpa using lookupKey_mapUpdate_self _ om.nextOp _ _ hlkR
    rw [lookupOp_SetCompleted_self _ om.nextOp _ hlkC]
    rfl

/-- C10, confirmed, for BOTH operation kinds the claim names.  `ApplyStack`
and `RemoveStack` each spawn their worker (`executeApply` /
`executeRemove`) on a fresh `context.Background()`; the operation's
cancellation handle cancels only the context `CreateOperation` derived
and immediately discarded.  Hence, for the apply and for the remove
scenario alike: the spawned worker's context is `background`; the op's
cancel handle is a `derived` context distinct from `background`;
cancelling the running op succeeds but cancels only the derived context
(never `background`); and the worker's final `SetCompleted` is still
applied afterwards, leaving the operation `completed`. -/
theorem c10_cancel_does_not_interrupt (m : StackManager) (req : ApplyStackRequest)
    (stackName : String) (removeVolumes : Bool)
    (m1 : StackManager) (opID : Nat) (effs : List Effect)
    (mr : StackManager) (opIDr : Nat) (effsr : List Effect)
    (happly : m.ApplyStack req = (m1, opID, effs))
    (hremove : m.RemoveStack stackName removeVolumes = (mr, opIDr, effsr))
    (hwf : m.opMgr.WF) (hbg : Ctx.background ∉ m.opMgr.cancelledCtxs) :
    (Effect.spawnWorker Ctx.background opID ∈ effs ∧
     (m1.opMgr.lookupOp opID).map Operation.cancelCtx =
       some (Ctx.derived m.opMgr.nextCtx) ∧
     Ctx.derived m.opMgr.nextCtx ≠ Ctx.background ∧
     ((m1.opMgr.SetState opID OperationState.running).Cancel opID).2 = none ∧
     Ctx.background ∉
       ((m1.opMgr.SetState opID OperationState.running).Cancel
         opID).1.cancelledCtxs ∧
     (((((m1.opMgr.SetState opID OperationState.running).Cancel
         opID).1.SetCompleted opID).lookupOp opID).map Operation.state =
       some OperationState.completed)) ∧
    (Effect.spawnWorker Ctx.background opIDr ∈ effsr ∧
     (mr.opMgr.lookupOp opIDr).map Operation.cancelCtx =
       some (Ctx.derived m.opMgr.nextCtx) ∧
     Ctx.derived m.opMgr.nextCtx ≠ Ctx.background ∧
     ((mr.opMgr.SetState opIDr OperationState.running).Cancel opIDr).2 = none ∧
     Ctx.background ∉
       ((mr.opMgr.SetState opIDr OperationState.running).Cancel
         opIDr).1.cancelledCtxs ∧
     (((((mr.opMgr.SetState opIDr OperationState.running).Cancel
         opIDr).1.SetCompleted opIDr).lookupOp opIDr).map Operation.state =
       some OperationState.completed)) := by
  simp only [StackManager.ApplyStack] at happly
  simp only [StackManager.RemoveStack] at hremove
  rw [Prod.mk.injEq, Prod.mk.injEq] at happly hremove
  obtain ⟨hm1, hop, heff⟩ := happly
  subst hm1
  subst hop
  subst heff
  obtain ⟨hmr, hopr, heffr⟩ := hremove
  subst hmr
  subst hopr
  subst heffr
  have ha := create_cancel_complete m.opMgr "stack.apply"
    [("stack", req.stackName)] hwf hbg
  have hr := create_cancel_complete m.opMgr "stack.remove"
    [("stack", stackName)] hwf hbg
  exact ⟨⟨by simp, ha.1, ha.2.1, ha.2.2.1, ha.2.2.2.1, ha.2.2.2.2⟩,
         ⟨by simp, hr.1, hr.2.1, hr.2.2.1, hr.2.2.2.1, hr.2.2.2.2⟩⟩

def c10Mgr : StackManager :=
  { stackRoot := "/srv", fs := [], opMgr := OpManager.new 5 }

def c10Req : ApplyStackRequest :=
  { stackName := "web", composeContent := "c", envVars := [],
    forceRecreate := false, services := [], pullImages := false }

/-- C10, witness: both the concrete cancelled apply op and the concrete
cancelled remove op still end `completed` once their workers finish. -/
theorem c10_cancel_does_not_interrupt_witness :
    (((((c10Mgr.ApplyStack c10Req).1.opMgr.SetState
        (c10Mgr.ApplyStack c10Req).2.1 OperationState.running).Cancel
        (c10Mgr.ApplyStack c10Req).2.1).2 = none) ∧
     ((((((c10Mgr.ApplyStack c10Req).1.opMgr.SetState
        (c10Mgr.ApplyStack c10Req).2.1 OperationState.running).Cancel
        (c10Mgr.ApplyStack c10Req).2.1).1.SetCompleted
        (c10Mgr.ApplyStack c10Req).2.1).lookupOp
        (c10Mgr.ApplyStack c10Req).2.1).map Operation.state =
      some OperationState.completed)) ∧
    (((((c10Mgr.RemoveStack "web" false).1.opMgr.SetState
        (c10Mgr.RemoveStack "web" false).2.1 OperationState.running).Cancel
        (c10Mgr.RemoveStack "web" false).2.1).2 = none) ∧
     ((((((c10Mgr.RemoveStack "web" false).1.opMgr.SetState
        (c10Mgr.RemoveStack "web" false).2.1 OperationState.running).Cancel
        (c10Mgr.RemoveStack "web" false).2.1).1.SetCompleted
        (c10Mgr.RemoveStack "web" false).2.1).lookupOp
        (c10Mgr.RemoveStack "web" false).2.1).map Operation.state =
      some OperationState.completed)) := by
  have h := c10_cancel_does_not_interrupt c10Mgr c10Req "web" false
    (c10Mgr.ApplyStack c10Req).1 (c10Mgr.ApplyStack c10Req).2.1
    (c10Mgr.ApplyStack c10Req).2.2
    (c10Mgr.RemoveStack "web" false).1 (c10Mgr.RemoveStack "web" false).2.1
    (c10Mgr.RemoveStack "web" false).2.2 rfl rfl
    (by intro p hp; simp [OpManager.new, c10Mgr] at hp)
    (by simp [OpManager.new, c10Mgr])
  exact ⟨⟨h.1.2.2.2.1, h.1.2.2.2.2.2⟩, ⟨h.2.2.2.2.1, h.2.2.2.2.2.2⟩⟩

/-! ## Claim C1: no per-stack mutual exclusion -/

/-- Spec predicate (§8): at most one apply/remove operation for the stack
is in `running` state. -/
def atMostOneRunningStackOp (m : OpManager) (stackName : String) : Prop :=
  runningStackOpsFor m stackName ≤ 1

theorem mapUpdate_append {α : Type} [BEq α] {β : Type}
    (l1 l2 : List (α × β)) (k : α) (f : β → β) :
    mapUpdate (l1 ++ l2) k f = mapUpdate l1 k f ++ mapUpdate l2 k f := by
  simp [mapUpdate]

theorem operations_SetState_of_some (m : OpManager) (opID : Nat)
    (st : OperationState) (op : Operation) (h : m.lookupOp opID = some op) :
    (m.SetState opID st).operations =
      mapUpdate m.operations opID (fun o => { o with state := st }) := by
  simp [OpManager.SetState, h, OpManager.emitEventLocked]

/-- Two back-to-back `CreateOperation "stack.apply"` calls for the same
stack name, each followed by its worker's first step (`SetState running`),
leave TWO operations for that stack simultaneously in `running` state. -/
theorem two_creates_two_running (om : OpManager) (name : String) (hwf : om.WF) :
    2 ≤ runningStackOpsFor
      ((((om.CreateOperation "stack.apply" [("stack", name)]).1.CreateOperation
          "stack.apply" [("stack", name)]).1.SetState om.nextOp
          OperationState.running).SetState (om.nextOp + 1) OperationState.running)
      name := by
  have hwf1 := WF_CreateOperation om "stack.apply" [("stack", name)] hwf
  have hlkA := lookupOp_CreateOperation_self om "stack.apply" [("stack", name)] hwf
  have hlkB := lookupOp_CreateOperation_self
    (om.CreateOperation "stack.apply" [("stack", name)]).1 "stack.apply"
    [("stack", name)] hwf1
  have hlk1 : ((om.CreateOperation "stack.apply" [("stack", name)]).1.CreateOperation
      "stack.apply" [("stack", name)]).1.lookupOp om.nextOp =
      some { id := om.nextOp, type := "stack.apply",
             state := OperationState.pending, createdAt := om.clock,
             completedAt := none, error := none, progress := 0,
             metadata := [("stack", name)], cancelCtx := Ctx.derived om.nextCtx } :=
    lookupKey_append_of_some _ _ _ _ hlkA
  have hfresh0 : ∀ p ∈ om.operations, (p.1 == om.nextOp) = false := by
    intro p hp
    exact beq_eq_false_iff_ne.mpr (Nat.ne_of_lt (hwf p hp))
  have hfresh0' : ∀ p ∈ om.operations, (p.1 == om.nextOp + 1) = false := by
    intro p hp
    exact beq_eq_false_iff_ne.mpr
      (Nat.ne_of_lt (Nat.lt_succ_of_lt (hwf p hp)))
  have hops2 : ((om.CreateOperation "stack.apply" [("stack", name)]).1.CreateOperation
      "stack.apply" [("stack", name)]).1.operations =
      (om.operations ++
        [(om.nextOp,
          { id := om.nextOp, type := "stack.apply",
            state := OperationState.pending, createdAt := om.clock,
            completedAt := none, error := none, progress := 0,
            metadata := [("stack", name)],
            cancelCtx := Ctx.derived om.nextCtx })]) ++
        [(om.nextOp + 1,
          { id := om.nextOp + 1, type := "stack.apply",
            state := OperationState.pending, createdAt := om.clock,
            completedAt := none, error := none, progress := 0,
            metadata := [("stack", name)],
            cancelCtx := Ctx.derived (om.nextCtx + 1) })] := rfl
  have hlk2 : (((om.CreateOperation "stack.apply" [("stack", name)]).1.CreateOperation
      "stack.apply" [("stack", name)]).1.SetState om.nextOp
      OperationState.running).lookupOp (om.nextOp + 1) =
      some { id := om.nextOp + 1, type := "stack.apply",
             state := OperationState.pending, createdAt := om.clock,
             completedAt := none, error := none, progress := 0,
             metadata := [("stack", name)],
             cancelCtx := Ctx.derived (om.nextCtx + 1) } := by
    show lookupKey (((om.CreateOperation "stack.apply"
      [("stack", name)]).1.CreateOperation "stack.apply"
      [("stack", name)]).1.SetState om.nextOp OperationState.running).operations
      (om.nextOp + 1) = _
    rw [operations_SetState_of_some _ _ _ _ hlk1]
    rw [lookupKey_mapUpdate_ne _ _ _ _ (Nat.succ_ne_self om.nextOp)]
    exact hlkB
  have hopsFin : ((((om.CreateOperation "stack.apply"
      [("stack", name)]).1.CreateOperation "stack.apply"
      [("stack", name)]).1.SetState om.nextOp
      OperationState.running).SetState (om.nextOp + 1)
      OperationState.running).operations =
      om.operations ++
        [(om.nextOp,
          { id := om.nextOp, type := "stack.apply",
            state := OperationState.running, createdAt := om.clock,
            completedAt := none, error := none, progress := 0,
            metadata := [("stack", name)],
            cancelCtx := Ctx.derived om.nextCtx }),
         (om.nextOp + 1,
          { id := om.nextOp + 1, type := "stack.apply",
            state := OperationState.running, createdAt := om.clock,
            completedAt := none, error := none, progress := 0,
            metadata := [("stack", name)],
            cancelCtx := Ctx.derived (om.nextCtx + 1) })] := by
    rw [operations_SetState_of_some _ _ _ _ hlk2]
    rw [operations_SetState_of_some _ _ _ _ hlk1]
    rw [hops2]
    rw [mapUpdate_append, mapUpdate_append, mapUpdate_append, mapUpdate_append]
    rw [mapUpdate_eq_of_fresh om.operations om.nextOp _ hfresh0]
    rw [mapUpdate_eq_of_fresh om.operations (om.nextOp + 1) _ hfresh0']
    have hb1 : ((om.nextOp + 1 : Nat) == om.nextOp) = false :=
      beq_eq_false_iff_ne.mpr (Nat.succ_ne_self om.nextOp)
    have hb2 : ((om.nextOp : Nat) == om.nextOp + 1) = false :=
      beq_eq_false_iff_ne.mpr (Nat.ne_of_lt (Nat.lt_succ_self om.nextOp))
    simp [mapUpdate, hb1, hb2]
  unfold runningStackOpsFor
  rw [hopsFin]
  rw [List.filter_append]
  rw [List.length_append]
  simp [List.filter, lookupKey]

def c1Req : ApplyStackRequest :=
  { stackName := "web", composeContent := "x", envVars := [],
    forceRecreate := false, services := [], pullImages := false }

def c1Mgr0 : StackManager :=
  { stackRoot := "/s", fs := [], opMgr := OpManager.new 0 }

def c1Both : OpManager :=
  (((c1Mgr0.ApplyStack c1Req).1.ApplyStack c1Req).1.opMgr.SetState
    (c1Mgr0.ApplyStack c1Req).2.1 OperationState.running).SetState
    ((c1Mgr0.ApplyStack c1Req).1.ApplyStack c1Req).2.1 OperationState.running

/-- C1, counterexample.  A second `ApplyStack` for the SAME stack name
`web`, issued while the first one's apply is in flight, is NOT rejected:
it returns a second, distinct op id (no error of any kind, let alone
FailedPrecondition — `ApplyStack` performs no in-flight check), and once
both workers take their first step, TWO `stack.apply` operations for
`web` are in `running` state at the same instant. -/
theorem c1_no_rejection_counterexample :
    (c1Mgr0.ApplyStack c1Req).2.1 ≠
      ((c1Mgr0.ApplyStack c1Req).1.ApplyStack c1Req).2.1 ∧
    runningStackOpsFor c1Both "web" = 2 := by decide

/-- C1, amended: `ApplyStack` performs no per-stack in-flight check.  The
manager mutex only serializes the synchronous file-write phase: a second
`ApplyStack` on the same stack name also succeeds, with a fresh distinct
op id, and after both spawned workers perform their first step the
"at most one running apply/remove per stack" property is violated — two
`stack.apply` operations for the same name are `running` simultaneously. -/
theorem c1_amended_no_exclusion (m : StackManager) (req : ApplyStackRequest)
    (hwf : m.opMgr.WF) (m1 m2 : StackManager) (op1 op2 : Nat)
    (e1 e2 : List Effect)
    (h1 : m.ApplyStack req = (m1, op1, e1))
    (h2 : m1.ApplyStack req = (m2, op2, e2)) :
    op1 ≠ op2 ∧
    ¬ atMostOneRunningStackOp
        ((m2.opMgr.SetState op1 OperationState.running).SetState op2
          OperationState.running) req.stackName := by
  simp only [StackManager.ApplyStack] at h1 h2
  rw [Prod.mk.injEq, Prod.mk.injEq] at h1 h2
  obtain ⟨hm1, hop1, he1⟩ := h1
  subst hm1
  subst hop1
  subst he1
  obtain ⟨hm2, hop2, he2⟩ := h2
  subst hm2
  subst hop2
  subst he2
  constructor
  · exact Nat.ne_of_lt (Nat.lt_succ_self m.opMgr.nextOp)
  · intro hle
    have hcount := two_creates_two_running m.opMgr req.stackName hwf
    have habs : (2 : Nat) ≤ 1 := le_trans hcount hle
    omega

/-- C1 amended, witness at the concrete double-apply scenario. -/
theorem c1_amended_no_exclusion_witness :
    ¬ atMostOneRunningStackOp c1Both c1Req.stackName :=
  (c1_amended_no_exclusion c1Mgr0 c1Req
    (by intro p hp; simp [c1Mgr0, OpManager.new] at hp)
    (c1Mgr0.ApplyStack c1Req).1 ((c1Mgr0.ApplyStack c1Req).1.ApplyStack c1Req).1
    (c1Mgr0.ApplyStack c1Req).2.1 ((c1Mgr0.ApplyStack c1Req).1.ApplyStack c1Req).2.1
    (c1Mgr0.ApplyStack c1Req).2.2 ((c1Mgr0.ApplyStack c1Req).1.ApplyStack c1Req).2.2
    rfl rfl).2

end Mandau
